import Mathlib

/-!
Verification development for the drag-and-drop transcriber pipeline
(`gui_transcribe.py`, `transcribe_cloud.py`).

The Python code is shallowly embedded: pure helpers become Lean functions
over `String` / `List Char` / `ℚ`; the filesystem and the two network
collaborators (transcription, completion) become an explicit environment
record plus an effect log, so that ordering of writes and collaborator
calls is visible in the model.
-/

namespace GuiTranscribe

/-! ### Python string primitives

Python `str.strip()` removes leading and trailing whitespace; for the
ASCII range the whitespace set is space, tab, newline, carriage return,
vertical tab and form feed.  `in` is the substring test and
`str.replace` replaces every non-overlapping occurrence scanning from
the left.  All three are modelled on `List Char`.
-/

def isPySpace (c : Char) : Bool :=
  c = ' ' || c = '\t' || c = '\n' || c = '\r' || c = '\x0b' || c = '\x0c'

def stripList (l : List Char) : List Char :=
  ((l.dropWhile isPySpace).reverse.dropWhile isPySpace).reverse

/-- Model of Python `str.strip()`. -/
def pyStrip (s : String) : String :=
  String.mk (stripList s.data)

theorem data_mk (l : List Char) : (String.mk l).data = l := rfl

/-- Model of Python's substring test `pat in s`, on char lists. -/
def containsList (pat : List Char) : List Char → Bool
  | [] => pat.isPrefixOf []
  | c :: rest => pat.isPrefixOf (c :: rest) || containsList pat rest

/-- Model of Python `pat in s`. -/
def pyContains (s pat : String) : Bool :=
  containsList pat.data s.data

/-- Fuel-driven worker for `splitOnList`; structural recursion on the
fuel keeps the definition kernel-reducible. -/
def splitOnAux (pat : List Char) : ℕ → List Char → List (List Char)
  | 0, l => [l]
  | fuel + 1, l =>
    if pat.isPrefixOf l then
      [] :: splitOnAux pat fuel (l.drop pat.length)
    else
      match l with
      | [] => [[]]
      | c :: rest =>
        match splitOnAux pat fuel rest with
        | [] => [[c]]
        | p :: ps => (c :: p) :: ps

/-- Split `l` at every leftmost, non-overlapping occurrence of `pat`
(nonempty), returning the pieces between occurrences. -/
def splitOnList (pat l : List Char) : List (List Char) :=
  splitOnAux pat (l.length + 1) l

/-- Fuel-driven worker for `replaceAllList`. -/
def replaceAllAux (pat repl : List Char) : ℕ → List Char → List Char
  | 0, l => l
  | fuel + 1, l =>
    if pat.isPrefixOf l then
      repl ++ replaceAllAux pat repl fuel (l.drop pat.length)
    else
      match l with
      | [] => []
      | c :: rest => c :: replaceAllAux pat repl fuel rest

/-- Replace every leftmost, non-overlapping occurrence of `pat`
(nonempty) in `l` by `repl`: Python `str.replace`. -/
def replaceAllList (pat repl l : List Char) : List Char :=
  replaceAllAux pat repl (l.length + 1) l

/-- Model of Python `s.replace(pat, repl)`. -/
def pyReplace (s pat repl : String) : String :=
  String.mk (replaceAllList pat.data repl.data s.data)

/-! ### Decimal rendering (Python `str(int)` / format padding) -/

/-- Fuel-driven worker for `digitsOf`. -/
def digitsOfAux : ℕ → ℕ → List Char
  | 0, _ => []
  | fuel + 1, n =>
    if n < 10 then [Nat.digitChar n]
    else digitsOfAux fuel (n / 10) ++ [Nat.digitChar (n % 10)]

/-- Decimal digits of `n`, most significant first (`str(n)` for `n : ℕ`). -/
def digitsOf (n : ℕ) : List Char :=
  digitsOfAux (n + 1) n

/-- Left-pad a digit string with zeros to a minimum width: Python
`f"{n:0wd}"` padding. -/
def pad (w : ℕ) (l : List Char) : List Char :=
  List.replicate (w - l.length) '0' ++ l

/-- Value of a decimal digit string (fold, most significant first). -/
def digitsVal (l : List Char) : ℕ :=
  l.foldl (fun acc c => 10 * acc + (c.toNat - 48)) 0

/-! ### Timestamp formatter (`seconds_to_srt_timestamp`) -/

/-- Round-half-to-even on ℚ: the rounding Python's built-in `round`
applies to the exact value of `seconds * 1000`. -/
def roundHalfEven (q : ℚ) : ℤ :=
  if q - ⌊q⌋ < 1 / 2 then ⌊q⌋
  else if 1 / 2 < q - ⌊q⌋ then ⌊q⌋ + 1
  else if ⌊q⌋ % 2 = 0 then ⌊q⌋ else ⌊q⌋ + 1

/-- The pure formatting stage of `seconds_to_srt_timestamp`: `divmod`
of a millisecond count into hours, minutes, seconds, milliseconds,
rendered as `HH:MM:SS,mmm` with two-digit-minimum padding. -/
def formatMillis (millis : ℕ) : String :=
  let hours := millis / 3600000
  let r1 := millis % 3600000
  let minutes := r1 / 60000
  let r2 := r1 % 60000
  let secs := r2 / 1000
  let ms := r2 % 1000
  String.mk (pad 2 (digitsOf hours) ++ ':' :: (pad 2 (digitsOf minutes) ++
    ':' :: (pad 2 (digitsOf secs) ++ ',' :: pad 3 (digitsOf ms))))

/-- Embedding of `seconds_to_srt_timestamp`:
`millis = int(round(seconds * 1000))`, then `divmod` into hours,
minutes, seconds, milliseconds, rendered as `HH:MM:SS,mmm` with
two-digit-minimum padding (hours unbounded).  The claims quantify over
non-negative inputs, where Python's `divmod` agrees with ℕ div/mod. -/
def seconds_to_srt_timestamp (seconds : ℚ) : String :=
  formatMillis (roundHalfEven (seconds * 1000)).toNat

/-- Split a char list at the first occurrence of `sep`: the part before
and the part after, or `none` when `sep` does not occur. -/
def splitField (sep : Char) (l : List Char) : Option (List Char × List Char) :=
  match l.dropWhile (fun c => c != sep) with
  | [] => none
  | _ :: rest => some (l.takeWhile (fun c => c != sep), rest)

/-- Parser for `HH:MM:SS,mmm` char lists: split on the two colons and
the comma, require the hour field nonempty and all fields decimal
digits, minutes/seconds fields of width 2 and the millisecond field of
width 3, and return the represented number of milliseconds. -/
def parseSrtList (l : List Char) : Option ℕ :=
  match splitField ':' l with
  | none => none
  | some (hs, r1) =>
    match splitField ':' r1 with
    | none => none
    | some (ms, r2) =>
      match splitField ',' r2 with
      | none => none
      | some (ss, mss) =>
        if hs ≠ [] ∧ hs.all Char.isDigit ∧ ms.length = 2 ∧ ms.all Char.isDigit ∧
            ss.length = 2 ∧ ss.all Char.isDigit ∧ mss.length = 3 ∧ mss.all Char.isDigit then
          some (digitsVal hs * 3600000 + digitsVal ms * 60000 +
            digitsVal ss * 1000 + digitsVal mss)
        else none

/-- Parser for `HH:MM:SS,mmm` strings. -/
def parseSrtTimestamp (s : String) : Option ℕ :=
  parseSrtList s.data

theorem roundHalfEven_intCast (n : ℤ) : roundHalfEven (n : ℚ) = n := by
  unfold roundHalfEven
  norm_num

theorem seconds_to_srt_timestamp_eval {s : ℚ} {n : ℤ}
    (h : s * 1000 = (n : ℚ)) :
    seconds_to_srt_timestamp s = formatMillis n.toNat := by
  unfold seconds_to_srt_timestamp
  rw [h, roundHalfEven_intCast]

example : seconds_to_srt_timestamp (3 / 2) = "00:00:01,500" := by
  rw [seconds_to_srt_timestamp_eval (n := 1500) (by norm_num)]
  decide

example : parseSrtTimestamp "00:00:01,500" = some 1500 := by decide

/-! ### Prompt library (`ensure_prompt_library`, `save_prompt`, `load_prompt_text`)

The JSON file `prompts.json` is modelled as `Option PromptLib`: `none`
when the file does not exist, otherwise the name→template mapping as an
insertion-ordered association list (Python dict / JSON object).
Serialization is lossless, so the file content is identified with the
mapping itself.
-/

def PromptLib : Type := List (String × String)

/-- Python `dict.get(k)`: value at the (first) matching key. -/
def dictGet (l : PromptLib) (k : String) : Option String :=
  match l with
  | [] => none
  | p :: rest => if p.1 = k then some p.2 else dictGet rest k

/-- Python `d[k] = v`: replace in place at an existing key, else append. -/
def dictSet (l : PromptLib) (k v : String) : PromptLib :=
  match l with
  | [] => [(k, v)]
  | p :: rest => if p.1 = k then (k, v) :: rest else p :: dictSet rest k v

/-- The `DEFAULT_PROMPTS` table of `gui_transcribe.py` (insertion order). -/
def DEFAULT_PROMPTS : PromptLib :=
  [("General Summary",
    "You are an executive assistant. Provide 5-10 concise bullet points summarizing the conversation. Focus on decisions, action items, deadlines, and unresolved questions. Include owners when possible.\n{transcript}"),
   ("LB Update (one line)",
    "Produce a single-line status update no longer than 300 characters covering current status, blockers, and the next planned step. Do not add bullet points or labels.\n{transcript}"),
   ("Radiology Downtime (Ops)",
    "Summarize the incident for hospital operations leadership. Highlight impact, timeline, workarounds, communication points, and next actions. Keep it concise and actionable.\n{transcript}"),
   ("Land Listing Summary",
    "Imagine you are briefing a buyer\x27s agent about a new property listing. Provide the buyer persona, top reasons to care, risks, next actions, and 3-5 attention-grabbing headlines (each 34 characters or fewer). {transcript}")]

/-- Embedding of `ensure_prompt_library()`: create the store with the defaults when
the file is absent, then read it back.  Returns the mapping read and
the resulting file state. -/
def ensure_prompt_library (st : Option PromptLib) : PromptLib × Option PromptLib :=
  match st with
  | none => (DEFAULT_PROMPTS, some DEFAULT_PROMPTS)
  | some m => (m, some m)

/-- Embedding of `save_prompt(name, text)`: upsert into the ensured mapping and
rewrite the whole file. -/
def save_prompt (prompt_name prompt_text : String) (st : Option PromptLib) :
    Option PromptLib :=
  some (dictSet (ensure_prompt_library st).1 prompt_name prompt_text)

/-- Embedding of `load_prompt_text(name)`: the saved template, or `""` when absent. -/
def load_prompt_text (prompt_name : String) (st : Option PromptLib) : String :=
  (dictGet (ensure_prompt_library st).1 prompt_name).getD ""

/-! ### Transcription records and the artifact writer -/

/-- One entry of the `segments` list of a verbose transcription record.
Each field is optional, matching `segment.get("start", 0)`,
`segment.get("end", 0)` and `segment.get("text", "")`; the `end` key is
rendered as `stop` (`end` is reserved in Lean). -/
structure Segment where
  start : Option ℚ
  stop : Option ℚ
  text : Option String
deriving DecidableEq

/-- A verbose transcription record as a plain mapping: `text = none`
models a record lacking the `"text"` key (`transcription.get("text", "")`),
and `segments = none` models a `"segments"` key that is missing or null
(`transcription.get("segments") or []`). -/
structure TranscriptionRecord where
  text : Option String
  segments : Option (List Segment)
deriving DecidableEq

def OUT_DIR : String := "out"

/-- The caption-building loop of `write_transcription_outputs`:
`for idx, segment in enumerate(segments, start=1)`, skipping segments
whose stripped text is empty and emitting
`[str(idx), "start --> end", text, ""]` otherwise. -/
def srtLinesAux : ℕ → List Segment → List String
  | _, [] => []
  | idx, seg :: rest =>
    (if pyStrip (seg.text.getD "") = "" then []
     else [toString idx,
       seconds_to_srt_timestamp (seg.start.getD 0) ++ " --> " ++
         seconds_to_srt_timestamp (seg.stop.getD 0),
       pyStrip (seg.text.getD ""), ""]) ++
    srtLinesAux (idx + 1) rest

/-- What `write_transcription_outputs` returns and writes: the paths
and the byte content of the transcript (`.txt`) and caption (`.srt`)
files.  The raw record (`.json`) file is the record serialized
losslessly, so its content is not modelled separately. -/
structure WrittenOutputs where
  transcript_text : String
  txt_path : String
  srt_path : String
  json_path : String
  txtContent : String
  srtContent : String

/-- Embedding of `write_transcription_outputs`. -/
def write_transcription_outputs (transcription : TranscriptionRecord)
    (base_name : String) : WrittenOutputs :=
  let transcript_text := pyStrip (transcription.text.getD "")
  let srt_body := pyStrip (String.intercalate "\n"
    (srtLinesAux 1 (transcription.segments.getD [])))
  { transcript_text := transcript_text,
    txt_path := OUT_DIR ++ "/" ++ base_name ++ ".txt",
    srt_path := OUT_DIR ++ "/" ++ base_name ++ ".srt",
    json_path := OUT_DIR ++ "/" ++ base_name ++ ".json",
    txtContent := transcript_text ++ "\n",
    srtContent := if srt_body = "" then "" else srt_body ++ "\n" }

/-! ### Summarizer (`summarize_transcript`) -/

/-- The prompt `summarize_transcript` sends to the completion
collaborator: strip the transcript; substitute it for every occurrence
of the literal `{transcript}` token when the template contains one,
else append the stripped template, a fixed separator label and the
stripped transcript.  (The `prompt_template or ""` `None`-guard of the
source is the identity on `String`.) -/
def summarize_transcript_prompt (prompt_template transcript_text : String) : String :=
  let cleaned_transcript := pyStrip transcript_text
  if pyContains prompt_template "{transcript}" then
    pyReplace prompt_template "{transcript}" cleaned_transcript
  else
    pyStrip prompt_template ++ "\n\nTranscript:\n" ++ cleaned_transcript

/-! ### Pipeline orchestrator (`transcribe_file`) -/

/-- Observable side effects of one pipeline run, in order: collaborator
calls and file writes (with the written content where a claim needs it). -/
inductive Effect where
  | callTranscription : Effect
  | writeTxt : String → Effect
  | writeJson : Effect
  | writeSrt : String → Effect
  | callSummary : String → Effect
  | writeSummary : String → Effect
deriving DecidableEq

/-- The ambient world of one run: the credential environment variable,
whether the input file exists, the generated base name, and the results
the two collaborators would return if invoked. -/
structure Env where
  api_key : Option String
  file_exists : Bool
  base_name : String
  transcription : Except String TranscriptionRecord
  summary_response : Except String String

/-- Embedding of `require_api_key()`: `os.getenv` yields `none` when unset; `not
api_key` is true for `None` and for the empty string. -/
def require_api_key (env : Env) : Except String String :=
  match env.api_key with
  | none => Except.error "OPENAI_API_KEY environment variable is not set."
  | some k =>
    if k = "" then Except.error "OPENAI_API_KEY environment variable is not set."
    else Except.ok k

/-- The `TranscriptionOutputs` dataclass. -/
structure TranscriptionOutputs where
  transcript_text : String
  summary_text : String
  txt_path : Option String
  srt_path : Option String
  json_path : Option String
  summary_path : Option String
  status_markdown : String
deriving DecidableEq

/-- Embedding of `transcribe_file`: the result (`Except` models an
uncaught exception) together with the ordered effect log.  Client
construction (`OpenAI(api_key=...)`) performs no collaborator call and
is not an effect. -/
def transcribe_file (env : Env) (file_path : Option String) (summarize : Bool)
    (prompt_template : String) : Except String TranscriptionOutputs × List Effect :=
  match file_path with
  | none => (Except.error "Please upload an audio file to transcribe.", [])
  | some _ =>
    match require_api_key env with
    | Except.error e => (Except.error e, [])
    | Except.ok _ =>
      if env.file_exists = false then
        (Except.error "Uploaded file is unavailable. Please try again.", [])
      else
        match env.transcription with
        | Except.error e => (Except.error e, [Effect.callTranscription])
        | Except.ok record =>
          let w := write_transcription_outputs record env.base_name
          let effs := [Effect.callTranscription, Effect.writeTxt w.txtContent,
            Effect.writeJson, Effect.writeSrt w.srtContent]
          if summarize then
            if pyStrip prompt_template = "" then
              (Except.error "Selected prompt is empty. Please provide prompt text or disable summarization.",
               effs)
            else
              let prompt := summarize_transcript_prompt prompt_template w.transcript_text
              match env.summary_response with
              | Except.error e => (Except.error e, effs ++ [Effect.callSummary prompt])
              | Except.ok out =>
                let summary_text := pyStrip out
                (Except.ok
                  { transcript_text := w.transcript_text,
                    summary_text := summary_text,
                    txt_path := some w.txt_path,
                    srt_path := some w.srt_path,
                    json_path := some w.json_path,
                    summary_path := some (OUT_DIR ++ "/" ++ env.base_name ++ "-summary.txt"),
                    status_markdown := "✅ Transcription and summary complete." },
                 effs ++ [Effect.callSummary prompt,
                   Effect.writeSummary (summary_text ++ "\n")])
          else
            (Except.ok
              { transcript_text := w.transcript_text,
                summary_text := "",
                txt_path := some w.txt_path,
                srt_path := some w.srt_path,
                json_path := some w.json_path,
                summary_path := none,
                status_markdown := "✅ Transcription complete." },
             effs)

/-! ### Lemmas: decimal digits -/

theorem digitsOfAux_congr (f1 : ℕ) : ∀ (f2 n : ℕ), n < f1 → n < f2 →
    digitsOfAux f1 n = digitsOfAux f2 n := by
  induction f1 with
  | zero => omega
  | succ f ih =>
    intro f2 n h1 h2
    cases f2 with
    | zero => omega
    | succ g =>
      simp only [digitsOfAux]
      by_cases h : n < 10
      · simp [h]
      · simp only [if_neg h]
        have hn : 0 < n := by omega
        have hd : n / 10 < n := Nat.div_lt_self hn (by omega)
        rw [ih g (n / 10) (by omega) (by omega)]

theorem digitsOf_eq (n : ℕ) : digitsOf n =
    if n < 10 then [Nat.digitChar n]
    else digitsOf (n / 10) ++ [Nat.digitChar (n % 10)] := by
  by_cases h : n < 10
  · rw [if_pos h]
    show digitsOfAux (n + 1) n = _
    simp [digitsOfAux, h]
  · rw [if_neg h]
    show digitsOfAux (n + 1) n = _
    have hn : 0 < n := by omega
    have hd : n / 10 < n := Nat.div_lt_self hn (by omega)
    have h1 : digitsOfAux (n + 1) n =
        digitsOfAux n (n / 10) ++ [Nat.digitChar (n % 10)] := by
      simp only [digitsOfAux, if_neg h]
    rw [h1, digitsOfAux_congr n (n / 10 + 1) (n / 10) (by omega) (by omega)]
    rfl

theorem mem_digitsOfAux {c : Char} (fuel : ℕ) : ∀ n, c ∈ digitsOfAux fuel n →
    ∃ d, d < 10 ∧ c = Nat.digitChar d := by
  induction fuel with
  | zero => simp [digitsOfAux]
  | succ f ih =>
    intro n hc
    simp only [digitsOfAux] at hc
    by_cases h : n < 10
    · rw [if_pos h] at hc
      simp only [List.mem_singleton] at hc
      exact ⟨n, h, hc⟩
    · rw [if_neg h] at hc
      rcases List.mem_append.mp hc with h1 | h2
      · exact ih (n / 10) h1
      · simp only [List.mem_singleton] at h2
        exact ⟨n % 10, Nat.mod_lt _ (by omega), h2⟩

theorem mem_digitsOf {c : Char} {n : ℕ} (h : c ∈ digitsOf n) :
    ∃ d, d < 10 ∧ c = Nat.digitChar d :=
  mem_digitsOfAux (n + 1) n h

theorem digitChar_spec : ∀ d, d < 10 → (Nat.digitChar d).isDigit = true ∧
    (Nat.digitChar d != ':') = true ∧ (Nat.digitChar d != ',') = true ∧
    (Nat.digitChar d).toNat - 48 = d := by decide

theorem digitsVal_foldl (l : List Char) : ∀ acc : ℕ,
    l.foldl (fun a c => 10 * a + (c.toNat - 48)) acc =
      acc * 10 ^ l.length + digitsVal l := by
  induction l with
  | nil => simp [digitsVal]
  | cons c rest ih =>
    intro acc
    have hc : digitsVal (c :: rest) =
        (c.toNat - 48) * 10 ^ rest.length + digitsVal rest := by
      show List.foldl _ _ (c :: rest) = _
      rw [List.foldl_cons, ih]
      ring_nf
    show List.foldl _ _ (c :: rest) = _
    rw [List.foldl_cons, ih, hc]
    simp [List.length_cons, pow_succ]
    ring

theorem digitsVal_cons (c : Char) (l : List Char) :
    digitsVal (c :: l) = (c.toNat - 48) * 10 ^ l.length + digitsVal l := by
  show List.foldl _ _ (c :: l) = _
  rw [List.foldl_cons, digitsVal_foldl]
  ring_nf

theorem digitsVal_append (a b : List Char) :
    digitsVal (a ++ b) = digitsVal a * 10 ^ b.length + digitsVal b := by
  show List.foldl _ _ (a ++ b) = _
  rw [List.foldl_append]
  rw [show List.foldl (fun a c => 10 * a + (c.toNat - 48)) 0 a = digitsVal a from rfl]
  exact digitsVal_foldl b (digitsVal a)

theorem digitsVal_singleton (c : Char) : digitsVal [c] = c.toNat - 48 := by
  rw [digitsVal_cons]
  simp [digitsVal]

theorem digitsVal_replicate_zero (k : ℕ) :
    digitsVal (List.replicate k '0') = 0 := by
  induction k with
  | zero => rfl
  | succ m ih =>
    rw [List.replicate_succ, digitsVal_cons, ih]
    simp

theorem digitsVal_pad (w : ℕ) (l : List Char) : digitsVal (pad w l) = digitsVal l := by
  unfold pad
  rw [digitsVal_append, digitsVal_replicate_zero]
  ring

theorem digitsVal_digitsOfAux (fuel : ℕ) : ∀ n, n < fuel →
    digitsVal (digitsOfAux fuel n) = n := by
  induction fuel with
  | zero => omega
  | succ f ih =>
    intro n h
    simp only [digitsOfAux]
    by_cases h10 : n < 10
    · rw [if_pos h10, digitsVal_singleton, (digitChar_spec n h10).2.2.2]
    · rw [if_neg h10, digitsVal_append]
      have hn : 0 < n := by omega
      have hd : n / 10 < n := Nat.div_lt_self hn (by omega)
      rw [ih (n / 10) (by omega), digitsVal_singleton,
        (digitChar_spec (n % 10) (Nat.mod_lt _ (by omega))).2.2.2]
      simp
      omega

theorem digitsVal_digitsOf (n : ℕ) : digitsVal (digitsOf n) = n :=
  digitsVal_digitsOfAux (n + 1) n (Nat.lt_succ_self n)

theorem digitsOf_length_pos (n : ℕ) : 0 < (digitsOf n).length := by
  rw [digitsOf_eq]
  split <;> simp

theorem digitsOf_length_of_lt10 {n : ℕ} (h : n < 10) : (digitsOf n).length = 1 := by
  rw [digitsOf_eq, if_pos h]
  rfl

theorem digitsOf_length_of_lt100 {n : ℕ} (h : n < 100) : (digitsOf n).length ≤ 2 := by
  rw [digitsOf_eq]
  by_cases h10 : n < 10
  · simp [h10]
  · rw [if_neg h10]
    have : n / 10 < 10 := by omega
    simp [digitsOf_length_of_lt10 this]

theorem digitsOf_length_of_lt1000 {n : ℕ} (h : n < 1000) :
    (digitsOf n).length ≤ 3 := by
  rw [digitsOf_eq]
  by_cases h10 : n < 10
  · simp [h10]
  · rw [if_neg h10]
    have : n / 10 < 100 := by omega
    have h2 := digitsOf_length_of_lt100 this
    simp
    omega

theorem pad_length (w : ℕ) (l : List Char) : (pad w l).length = max w l.length := by
  unfold pad
  simp
  omega

theorem mem_pad_digitsOf {c : Char} {w n : ℕ} (h : c ∈ pad w (digitsOf n)) :
    ∃ d, d < 10 ∧ c = Nat.digitChar d := by
  unfold pad at h
  rcases List.mem_append.mp h with h1 | h2
  · exact ⟨0, by omega, List.eq_of_mem_replicate h1⟩
  · exact mem_digitsOf h2

/-! ### Lemmas: takeWhile / dropWhile over an append -/

theorem takeWhile_append_cons {p : Char → Bool} {l : List Char} {c : Char}
    (r : List Char) (hl : ∀ x ∈ l, p x = true) (hc : p c = false) :
    (l ++ c :: r).takeWhile p = l := by
  induction l with
  | nil => simp [List.takeWhile_cons, hc]
  | cons a as ih =>
    have pa := hl a (List.mem_cons_self a as)
    simp only [List.cons_append, List.takeWhile_cons, pa, if_true]
    rw [ih fun x hx => hl x (List.mem_cons_of_mem a hx)]

theorem dropWhile_append_cons {p : Char → Bool} {l : List Char} {c : Char}
    (r : List Char) (hl : ∀ x ∈ l, p x = true) (hc : p c = false) :
    (l ++ c :: r).dropWhile p = c :: r := by
  induction l with
  | nil => simp [List.dropWhile_cons, hc]
  | cons a as ih =>
    have pa := hl a (List.mem_cons_self a as)
    simp only [List.cons_append, List.dropWhile_cons, pa, if_true]
    exact ih fun x hx => hl x (List.mem_cons_of_mem a hx)

/-! ### Lemmas: the timestamp round trip -/

theorem pad_digits_facts {w n : ℕ} : ∀ c ∈ pad w (digitsOf n),
    c.isDigit = true ∧ (c != ':') = true ∧ (c != ',') = true := by
  intro c hc
  obtain ⟨d, hd, rfl⟩ := mem_pad_digitsOf hc
  exact ⟨(digitChar_spec d hd).1, (digitChar_spec d hd).2.1,
    (digitChar_spec d hd).2.2.1⟩

theorem splitField_append (sep : Char) (a b : List Char)
    (ha : ∀ x ∈ a, (x != sep) = true) :
    splitField sep (a ++ sep :: b) = some (a, b) := by
  unfold splitField
  rw [dropWhile_append_cons b ha (by simp), takeWhile_append_cons b ha (by simp)]

theorem parse_render (H M S ms : ℕ) (hM : M < 100) (hS : S < 100)
    (hms : ms < 1000) :
    parseSrtList (pad 2 (digitsOf H) ++ ':' :: (pad 2 (digitsOf M) ++
      ':' :: (pad 2 (digitsOf S) ++ ',' :: pad 3 (digitsOf ms)))) =
    some (H * 3600000 + M * 60000 + S * 1000 + ms) := by
  have hA : ∀ x ∈ pad 2 (digitsOf H), (x != ':') = true :=
    fun x hx => (pad_digits_facts x hx).2.1
  have hB : ∀ x ∈ pad 2 (digitsOf M), (x != ':') = true :=
    fun x hx => (pad_digits_facts x hx).2.1
  have hC : ∀ x ∈ pad 2 (digitsOf S), (x != ',') = true :=
    fun x hx => (pad_digits_facts x hx).2.2
  unfold parseSrtList
  rw [splitField_append ':' _ _ hA]
  dsimp only
  rw [splitField_append ':' _ _ hB]
  dsimp only
  rw [splitField_append ',' _ _ hC]
  dsimp only
  have hcond : pad 2 (digitsOf H) ≠ [] ∧
      (pad 2 (digitsOf H)).all Char.isDigit = true ∧
      (pad 2 (digitsOf M)).length = 2 ∧
      (pad 2 (digitsOf M)).all Char.isDigit = true ∧
      (pad 2 (digitsOf S)).length = 2 ∧
      (pad 2 (digitsOf S)).all Char.isDigit = true ∧
      (pad 3 (digitsOf ms)).length = 3 ∧
      (pad 3 (digitsOf ms)).all Char.isDigit = true := by
    refine ⟨?_, ?_, ?_, ?_, ?_, ?_, ?_, ?_⟩
    · apply List.ne_nil_of_length_pos
      rw [pad_length]
      omega
    · exact List.all_eq_true.mpr fun x hx => (pad_digits_facts x hx).1
    · rw [pad_length]
      have := digitsOf_length_of_lt100 hM
      omega
    · exact List.all_eq_true.mpr fun x hx => (pad_digits_facts x hx).1
    · rw [pad_length]
      have := digitsOf_length_of_lt100 hS
      omega
    · exact List.all_eq_true.mpr fun x hx => (pad_digits_facts x hx).1
    · rw [pad_length]
      have := digitsOf_length_of_lt1000 hms
      omega
    · exact List.all_eq_true.mpr fun x hx => (pad_digits_facts x hx).1
  rw [if_pos hcond, digitsVal_pad, digitsVal_pad, digitsVal_pad, digitsVal_pad,
    digitsVal_digitsOf, digitsVal_digitsOf, digitsVal_digitsOf, digitsVal_digitsOf]

theorem formatMillis_data (m : ℕ) : (formatMillis m).data =
    pad 2 (digitsOf (m / 3600000)) ++
    ':' :: (pad 2 (digitsOf (m % 3600000 / 60000)) ++
    ':' :: (pad 2 (digitsOf (m % 3600000 % 60000 / 1000)) ++
    ',' :: pad 3 (digitsOf (m % 3600000 % 60000 % 1000)))) := rfl

theorem parse_formatMillis (m : ℕ) :
    parseSrtTimestamp (formatMillis m) = some m := by
  unfold parseSrtTimestamp
  rw [formatMillis_data]
  rw [parse_render (m / 3600000) (m % 3600000 / 60000)
    (m % 3600000 % 60000 / 1000) (m % 3600000 % 60000 % 1000)
    (by omega) (by omega) (by omega)]
  congr 1
  omega

theorem formatMillis_shape (m : ℕ) : ∃ A B C D : List Char,
    (formatMillis m).data = A ++ ':' :: (B ++ ':' :: (C ++ ',' :: D)) ∧
    2 ≤ A.length ∧ B.length = 2 ∧ C.length = 2 ∧ D.length = 3 ∧
    ((A ++ B ++ C ++ D).all Char.isDigit = true) := by
  refine ⟨pad 2 (digitsOf (m / 3600000)),
    pad 2 (digitsOf (m % 3600000 / 60000)),
    pad 2 (digitsOf (m % 3600000 % 60000 / 1000)),
    pad 3 (digitsOf (m % 3600000 % 60000 % 1000)), formatMillis_data m,
    ?_, ?_, ?_, ?_, ?_⟩
  · rw [pad_length]
    omega
  · rw [pad_length]
    have := digitsOf_length_of_lt100 (show m % 3600000 / 60000 < 100 by omega)
    omega
  · rw [pad_length]
    have := digitsOf_length_of_lt100
      (show m % 3600000 % 60000 / 1000 < 100 by omega)
    omega
  · rw [pad_length]
    have := digitsOf_length_of_lt1000 (show m % 3600000 % 60000 % 1000 < 1000 by omega)
    omega
  · refine List.all_eq_true.mpr fun x hx => ?_
    simp only [List.append_assoc, List.mem_append] at hx
    rcases hx with h | h | h | h <;> exact (pad_digits_facts x h).1

/-! ### Lemmas: rounding -/

theorem roundHalfEven_cases (q : ℚ) :
    roundHalfEven q = ⌊q⌋ ∨ roundHalfEven q = ⌊q⌋ + 1 := by
  unfold roundHalfEven
  split_ifs <;> simp

theorem roundHalfEven_nonneg {q : ℚ} (h : 0 ≤ q) : 0 ≤ roundHalfEven q := by
  have hf : (0 : ℤ) ≤ ⌊q⌋ := Int.floor_nonneg.mpr h
  rcases roundHalfEven_cases q with h1 | h1 <;> omega

theorem roundHalfEven_mono {a b : ℚ} (hab : a ≤ b) :
    roundHalfEven a ≤ roundHalfEven b := by
  have hfl : ⌊a⌋ ≤ ⌊b⌋ := Int.floor_le_floor hab
  by_cases heq : ⌊a⌋ = ⌊b⌋
  · unfold roundHalfEven
    rw [← heq]
    split_ifs <;> first | omega | (exfalso; linarith)
  · have hlt : ⌊a⌋ < ⌊b⌋ := lt_of_le_of_ne hfl heq
    have h1 : roundHalfEven a ≤ ⌊a⌋ + 1 := by
      rcases roundHalfEven_cases a with h | h <;> omega
    have h2 : ⌊b⌋ ≤ roundHalfEven b := by
      rcases roundHalfEven_cases b with h | h <;> omega
    omega

/-! ### Lemmas: caption blocks -/

/-- The caption block an enumerated segment contributes: `none` when
its stripped text is empty, else the four lines of the block, indexed
by the segment's enumeration position. -/
def srtBlock (p : ℕ × Segment) : Option (List String) :=
  if pyStrip (p.2.text.getD "") = "" then none
  else some [toString p.1,
    seconds_to_srt_timestamp (p.2.start.getD 0) ++ " --> " ++
      seconds_to_srt_timestamp (p.2.stop.getD 0),
    pyStrip (p.2.text.getD ""), ""]

theorem srtLinesAux_eq_enumFrom (segs : List Segment) : ∀ n : ℕ,
    srtLinesAux n segs = ((List.enumFrom n segs).filterMap srtBlock).flatten := by
  induction segs with
  | nil => intro n; simp [srtLinesAux]
  | cons seg rest ih =>
    intro n
    by_cases htext : pyStrip (seg.text.getD "") = ""
    · simp [srtLinesAux, srtBlock, htext, ih]
    · simp [srtLinesAux, srtBlock, htext, ih]

theorem srtLinesAux_nil_of_blank (segs : List Segment)
    (h : ∀ seg ∈ segs, pyStrip (seg.text.getD "") = "") :
    ∀ n : ℕ, srtLinesAux n segs = [] := by
  induction segs with
  | nil => intro n; rfl
  | cons seg rest ih =>
    intro n
    have h1 := h seg (List.mem_cons_self seg rest)
    simp only [srtLinesAux, h1, if_pos, List.nil_append]
    exact ih (fun s hs => h s (List.mem_cons_of_mem seg hs)) (n + 1)

theorem write_transcript_text (rec : TranscriptionRecord) (base : String) :
    (write_transcription_outputs rec base).transcript_text =
      pyStrip (rec.text.getD "") := rfl

theorem write_txtContent (rec : TranscriptionRecord) (base : String) :
    (write_transcription_outputs rec base).txtContent =
      pyStrip (rec.text.getD "") ++ "\n" := rfl

theorem write_srtContent (rec : TranscriptionRecord) (base : String) :
    (write_transcription_outputs rec base).srtContent =
      (if pyStrip (String.intercalate "\n" (srtLinesAux 1 (rec.segments.getD []))) = ""
       then ""
       else pyStrip (String.intercalate "\n" (srtLinesAux 1 (rec.segments.getD []))) ++ "\n") := rfl

/-- The segment list `[(0.0, 1.5, "Hello"), (1.5, 1.5, ""), (3.0, 4.25, "World")]`. -/
def exampleSegments : List Segment :=
  [{ start := some 0, stop := some (3 / 2), text := some "Hello" },
   { start := some (3 / 2), stop := some (3 / 2), text := some "" },
   { start := some 3, stop := some (17 / 4), text := some "World" }]

def exampleRecord : TranscriptionRecord :=
  { text := some "Hello World", segments := some exampleSegments }

/-! ### Claim theorems: timestamps and captions -/

/-- Claim C5: for every non-negative seconds value, the timestamp
formatter returns a string of the form `HH:MM:SS,mmm` (hour field at
least two digits, minute/second fields exactly two, millisecond field
exactly three, all decimal digits), and parsing the output back yields
exactly `round(s * 1000)` milliseconds, with round-half-to-even
rounding and a non-negative rounded value. -/
theorem timestamp_format_round_trip (s : ℚ) (h : 0 ≤ s) :
    (∃ A B C D : List Char,
      (seconds_to_srt_timestamp s).data = A ++ ':' :: (B ++ ':' :: (C ++ ',' :: D)) ∧
      2 ≤ A.length ∧ B.length = 2 ∧ C.length = 2 ∧ D.length = 3 ∧
      (A ++ B ++ C ++ D).all Char.isDigit = true) ∧
    0 ≤ roundHalfEven (s * 1000) ∧
    parseSrtTimestamp (seconds_to_srt_timestamp s) =
      some (roundHalfEven (s * 1000)).toNat := by
  have h1000 : (0 : ℚ) ≤ s * 1000 := by positivity
  exact ⟨formatMillis_shape _, roundHalfEven_nonneg h1000, parse_formatMillis _⟩

/-- Witness for C5 at `s = 3/2`. -/
theorem timestamp_format_round_trip_witness :
    (∃ A B C D : List Char,
      (seconds_to_srt_timestamp (3 / 2)).data = A ++ ':' :: (B ++ ':' :: (C ++ ',' :: D)) ∧
      2 ≤ A.length ∧ B.length = 2 ∧ C.length = 2 ∧ D.length = 3 ∧
      (A ++ B ++ C ++ D).all Char.isDigit = true) ∧
    0 ≤ roundHalfEven ((3 / 2 : ℚ) * 1000) ∧
    parseSrtTimestamp (seconds_to_srt_timestamp (3 / 2)) =
      some (roundHalfEven ((3 / 2 : ℚ) * 1000)).toNat :=
  timestamp_format_round_trip (3 / 2) (by norm_num)

/-- Claim C6: the timestamp formatter is monotonically non-decreasing
in the represented millisecond count. -/
theorem timestamp_monotone (s1 s2 : ℚ) (h0 : 0 ≤ s1) (h12 : s1 ≤ s2) :
    (parseSrtTimestamp (seconds_to_srt_timestamp s1)).getD 0 ≤
    (parseSrtTimestamp (seconds_to_srt_timestamp s2)).getD 0 := by
  unfold seconds_to_srt_timestamp
  rw [parse_formatMillis, parse_formatMillis]
  simp only [Option.getD_some]
  exact Int.toNat_le_toNat
    (roundHalfEven_mono (mul_le_mul_of_nonneg_right h12 (by norm_num)))

/-- Witness for C6 at `s1 = 1`, `s2 = 3/2`. -/
theorem timestamp_monotone_witness :
    (parseSrtTimestamp (seconds_to_srt_timestamp 1)).getD 0 ≤
    (parseSrtTimestamp (seconds_to_srt_timestamp (3 / 2))).getD 0 :=
  timestamp_monotone 1 (3 / 2) (by norm_num) (by norm_num)

/-- Claim C3: the caption file contains one block per segment with
non-empty stripped text, in original order, each indexed by the
segment's 1-based position in the original segment list (blank
segments leave gaps in the numbering); in particular the record with
segments `[(0.0, 1.5, "Hello"), (1.5, 1.5, ""), (3.0, 4.25, "World")]`
yields exactly the blocks indexed 1 and 3 with timestamps
`00:00:00,000 --> 00:00:01,500` and `00:00:03,000 --> 00:00:04,250`. -/
theorem caption_index_assignment :
    (∀ (rec : TranscriptionRecord) (base : String),
      (write_transcription_outputs rec base).srtContent =
        (if pyStrip (String.intercalate "\n"
            (((List.enumFrom 1 (rec.segments.getD [])).filterMap srtBlock).flatten)) = ""
         then ""
         else pyStrip (String.intercalate "\n"
            (((List.enumFrom 1 (rec.segments.getD [])).filterMap srtBlock).flatten)) ++ "\n")) ∧
    (write_transcription_outputs exampleRecord "base").srtContent =
      "1\n00:00:00,000 --> 00:00:01,500\nHello\n\n3\n00:00:03,000 --> 00:00:04,250\nWorld\n" := by
  constructor
  · intro rec base
    rw [write_srtContent, srtLinesAux_eq_enumFrom]
  · have t0 : seconds_to_srt_timestamp 0 = "00:00:00,000" := by
      rw [seconds_to_srt_timestamp_eval (n := 0) (by norm_num)]
      decide
    have t15 : seconds_to_srt_timestamp (3 / 2) = "00:00:01,500" := by
      rw [seconds_to_srt_timestamp_eval (n := 1500) (by norm_num)]
      decide
    have t3 : seconds_to_srt_timestamp 3 = "00:00:03,000" := by
      rw [seconds_to_srt_timestamp_eval (n := 3000) (by norm_num)]
      decide
    have t425 : seconds_to_srt_timestamp (17 / 4) = "00:00:04,250" := by
      rw [seconds_to_srt_timestamp_eval (n := 4250) (by norm_num)]
      decide
    have hl : srtLinesAux 1 (exampleRecord.segments.getD []) =
        ["1", "00:00:00,000 --> 00:00:01,500", "Hello", "",
         "3", "00:00:03,000 --> 00:00:04,250", "World", ""] := by
      rw [show exampleRecord.segments.getD [] = exampleSegments from rfl]
      simp only [exampleSegments, srtLinesAux]
      dsimp only [Option.getD_some]
      rw [t0, t15, t3, t425]
      decide
    rw [write_srtContent, hl]
    decide

/-- Claim C4: when the segment list is empty or every segment's
stripped text is empty, the caption file content is the empty string
(zero bytes), not a lone newline. -/
theorem caption_file_empty_when_all_blank (rec : TranscriptionRecord) (base : String)
    (h : ∀ seg ∈ rec.segments.getD [], pyStrip (seg.text.getD "") = "") :
    (write_transcription_outputs rec base).srtContent = "" := by
  rw [write_srtContent, srtLinesAux_nil_of_blank _ h 1]
  decide

/-- Witness for C4 at a record with one all-whitespace segment. -/
theorem caption_file_empty_when_all_blank_witness :
    (write_transcription_outputs
      { text := some "hi",
        segments := some [{ start := none, stop := none, text := some " " }] }
      "b").srtContent = "" :=
  caption_file_empty_when_all_blank _ "b" (by decide)

/-- Claim C9: the artifact writer is total over records missing
expected fields: a record without the `text` key yields the empty
transcript text and a transcript file holding only a newline, and a
record whose `segments` key is missing or null yields a zero-byte
caption file. -/
theorem writer_total_on_missing_fields (rec : TranscriptionRecord) (base : String) :
    (rec.text = none →
      (write_transcription_outputs rec base).transcript_text = "" ∧
      (write_transcription_outputs rec base).txtContent = "\n") ∧
    (rec.segments = none →
      (write_transcription_outputs rec base).srtContent = "") := by
  constructor
  · intro h
    rw [write_transcript_text, write_txtContent, h]
    exact ⟨rfl, rfl⟩
  · intro h
    rw [write_srtContent, h]
    decide

/-- Witness for C9 at the record with both fields missing. -/
theorem writer_total_on_missing_fields_witness :
    (write_transcription_outputs { text := none, segments := none } "b").transcript_text = "" ∧
    (write_transcription_outputs { text := none, segments := none } "b").txtContent = "\n" ∧
    (write_transcription_outputs { text := none, segments := none } "b").srtContent = "" := by
  have h := writer_total_on_missing_fields { text := none, segments := none } "b"
  exact ⟨(h.1 rfl).1, (h.1 rfl).2, h.2 rfl⟩

/-! ### Lemmas: leftmost split, replacement and the substring test -/

theorem intercalate_singleton (sep x : List Char) :
    List.intercalate sep [x] = x := by
  simp [List.intercalate]

theorem intercalate_cons_cons (sep x y : List Char) (ys : List (List Char)) :
    List.intercalate sep (x :: y :: ys) = x ++ sep ++ List.intercalate sep (y :: ys) := by
  simp [List.intercalate, List.intersperse]

theorem intercalate_cons_head (sep : List Char) (c : Char) (p : List Char)
    (ps : List (List Char)) :
    List.intercalate sep ((c :: p) :: ps) = c :: List.intercalate sep (p :: ps) := by
  cases ps with
  | nil => rw [intercalate_singleton, intercalate_singleton]
  | cons q qs => rw [intercalate_cons_cons, intercalate_cons_cons]; rfl

theorem splitOnAux_ne_nil (pat : List Char) (fuel : ℕ) (l : List Char) :
    splitOnAux pat fuel l ≠ [] := by
  cases fuel with
  | zero => simp [splitOnAux]
  | succ f =>
    simp only [splitOnAux]
    by_cases h : pat.isPrefixOf l
    · simp [h]
    · rw [if_neg h]
      cases l with
      | nil => simp
      | cons c rest =>
        dsimp only
        rcases hq : splitOnAux pat f rest with _ | ⟨p, ps⟩
        · simp
        · simp

theorem isPrefixOf_exists {p l : List Char} (h : p.isPrefixOf l = true) :
    ∃ t, l = p ++ t := by
  induction p generalizing l with
  | nil => exact ⟨l, rfl⟩
  | cons a as ih =>
    cases l with
    | nil => simp [List.isPrefixOf] at h
    | cons b bs =>
      simp only [List.isPrefixOf, Bool.and_eq_true, beq_iff_eq] at h
      obtain ⟨t, rfl⟩ := ih h.2
      exact ⟨t, by rw [h.1]; simp⟩

theorem isPrefixOf_length_le {p l : List Char} (h : p.isPrefixOf l = true) :
    p.length ≤ l.length := by
  obtain ⟨t, rfl⟩ := isPrefixOf_exists h
  simp

theorem prefix_append_drop {pat l : List Char} (h : pat.isPrefixOf l = true) :
    pat ++ l.drop pat.length = l := by
  obtain ⟨t, rfl⟩ := isPrefixOf_exists h
  rw [List.drop_left]

theorem intercalate_splitOnAux (pat : List Char) (hpat : pat ≠ []) (fuel : ℕ) :
    ∀ l : List Char, l.length < fuel →
      List.intercalate pat (splitOnAux pat fuel l) = l := by
  induction fuel with
  | zero => omega
  | succ f ih =>
    intro l hl
    simp only [splitOnAux]
    by_cases h : pat.isPrefixOf l
    · rw [if_pos h]
      have hne : splitOnAux pat f (l.drop pat.length) ≠ [] := splitOnAux_ne_nil pat f _
      obtain ⟨q, qs, hqs⟩ := List.exists_cons_of_ne_nil hne
      have hplen : 0 < pat.length := List.length_pos.mpr hpat
      have hllen : pat.length ≤ l.length :=
        isPrefixOf_length_le h
      have hrec := ih (l.drop pat.length) (by simp [List.length_drop]; omega)
      rw [hqs] at hrec ⊢
      rw [intercalate_cons_cons, hrec]
      simpa using prefix_append_drop h
    · rw [if_neg h]
      cases l with
      | nil => simp [intercalate_singleton]
      | cons c rest =>
        dsimp only
        have hne : splitOnAux pat f rest ≠ [] := splitOnAux_ne_nil pat f rest
        obtain ⟨q, qs, hqs⟩ := List.exists_cons_of_ne_nil hne
        have hrec := ih rest (by simp at hl ⊢; omega)
        rw [hqs] at hrec ⊢
        dsimp only
        rw [intercalate_cons_head, hrec]

theorem replaceAllAux_eq_intercalate (pat repl : List Char) (hpat : pat ≠ [])
    (fuel : ℕ) : ∀ l : List Char, l.length < fuel →
      replaceAllAux pat repl fuel l =
        List.intercalate repl (splitOnAux pat fuel l) := by
  induction fuel with
  | zero => omega
  | succ f ih =>
    intro l hl
    simp only [splitOnAux, replaceAllAux]
    by_cases h : pat.isPrefixOf l
    · rw [if_pos h, if_pos h]
      have hne : splitOnAux pat f (l.drop pat.length) ≠ [] := splitOnAux_ne_nil pat f _
      obtain ⟨q, qs, hqs⟩ := List.exists_cons_of_ne_nil hne
      have hplen : 0 < pat.length := List.length_pos.mpr hpat
      have hllen : pat.length ≤ l.length :=
        isPrefixOf_length_le h
      have hrec := ih (l.drop pat.length) (by simp [List.length_drop]; omega)
      rw [hqs] at hrec ⊢
      rw [intercalate_cons_cons, hrec]
      simp
    · rw [if_neg h, if_neg h]
      cases l with
      | nil => rfl
      | cons c rest =>
        dsimp only
        have hne : splitOnAux pat f rest ≠ [] := splitOnAux_ne_nil pat f rest
        obtain ⟨q, qs, hqs⟩ := List.exists_cons_of_ne_nil hne
        have hrec := ih rest (by simp at hl ⊢; omega)
        rw [hqs] at hrec ⊢
        dsimp only
        rw [intercalate_cons_head, hrec]

theorem isPrefixOf_nil_false {pat : List Char} (hpat : pat ≠ []) :
    pat.isPrefixOf ([] : List Char) = false := by
  cases pat with
  | nil => exact absurd rfl hpat
  | cons c cs => rfl

theorem containsList_iff_splitOnAux (pat : List Char) (hpat : pat ≠ [])
    (fuel : ℕ) : ∀ l : List Char, l.length < fuel →
      (containsList pat l = true ↔ 2 ≤ (splitOnAux pat fuel l).length) := by
  induction fuel with
  | zero => omega
  | succ f ih =>
    intro l hl
    simp only [splitOnAux]
    by_cases h : pat.isPrefixOf l
    · rw [if_pos h]
      have hne : splitOnAux pat f (l.drop pat.length) ≠ [] := splitOnAux_ne_nil pat f _
      have hlen : 0 < (splitOnAux pat f (l.drop pat.length)).length :=
        List.length_pos.mpr hne
      constructor
      · intro _
        simp only [List.length_cons]
        omega
      · intro _
        cases l with
        | nil => rw [isPrefixOf_nil_false hpat] at h; exact absurd h (by simp)
        | cons c rest => simp [containsList, h]
    · rw [if_neg h]
      cases l with
      | nil =>
        simp [containsList, isPrefixOf_nil_false hpat]
      | cons c rest =>
        dsimp only
        have hne : splitOnAux pat f rest ≠ [] := splitOnAux_ne_nil pat f rest
        obtain ⟨q, qs, hqs⟩ := List.exists_cons_of_ne_nil hne
        have hrec := ih rest (by simp at hl ⊢; omega)
        rw [hqs] at hrec ⊢
        dsimp only
        simp only [containsList, h, Bool.false_or, List.length_cons] at hrec ⊢
        exact hrec

theorem splitOnList_intercalate {pat : List Char} (hpat : pat ≠ [])
    (l : List Char) : List.intercalate pat (splitOnList pat l) = l :=
  intercalate_splitOnAux pat hpat (l.length + 1) l (Nat.lt_succ_self _)

theorem replaceAllList_eq_intercalate {pat : List Char} (repl : List Char)
    (hpat : pat ≠ []) (l : List Char) :
    replaceAllList pat repl l = List.intercalate repl (splitOnList pat l) :=
  replaceAllAux_eq_intercalate pat repl hpat (l.length + 1) l (Nat.lt_succ_self _)

theorem containsList_iff_splitOnList {pat : List Char} (hpat : pat ≠ [])
    (l : List Char) :
    (containsList pat l = true ↔ 2 ≤ (splitOnList pat l).length) :=
  containsList_iff_splitOnAux pat hpat (l.length + 1) l (Nat.lt_succ_self _)

/-- Claim C7: when the template contains the literal `{transcript}`
token, the prompt sent to the completion collaborator is the template
with every occurrence of the token replaced by the stripped transcript
verbatim (the template splits at the token occurrences into at least
two pieces, reassembling with the token recovers the template, and the
prompt reassembles the same pieces with the stripped transcript);
otherwise the prompt is the stripped template, the fixed separator
label `"\n\nTranscript:\n"`, and the stripped transcript, all present
in full. -/
theorem summary_prompt_construction (t tr : String) :
    if pyContains t "{transcript}" then
      (summarize_transcript_prompt t tr).data =
        List.intercalate (pyStrip tr).data
          (splitOnList ("{transcript}".data) t.data) ∧
      t.data = List.intercalate ("{transcript}".data)
          (splitOnList ("{transcript}".data) t.data) ∧
      2 ≤ (splitOnList ("{transcript}".data) t.data).length
    else
      summarize_transcript_prompt t tr =
        pyStrip t ++ "\n\nTranscript:\n" ++ pyStrip tr := by
  have hpat : ("{transcript}".data : List Char) ≠ [] := by decide
  by_cases h : pyContains t "{transcript}" = true
  · rw [if_pos h]
    refine ⟨?_, (splitOnList_intercalate hpat t.data).symm,
      (containsList_iff_splitOnList hpat t.data).mp h⟩
    show (summarize_transcript_prompt t tr).data = _
    unfold summarize_transcript_prompt
    rw [if_pos h]
    show (pyReplace t "{transcript}" (pyStrip tr)).data = _
    unfold pyReplace
    rw [data_mk]
    exact replaceAllList_eq_intercalate (pyStrip tr).data hpat t.data
  · rw [if_neg h]
    unfold summarize_transcript_prompt
    rw [if_neg h]

/-! ### Lemmas: the prompt library -/

theorem dictGet_dictSet_self (l : PromptLib) (k v : String) :
    dictGet (dictSet l k v) k = some v := by
  induction l with
  | nil => simp [dictSet, dictGet]
  | cons p rest ih =>
    by_cases h : p.1 = k
    · simp [dictSet, h, dictGet]
    · simp [dictSet, h, dictGet, ih]

theorem dictGet_dictSet_other (l : PromptLib) (k v k2 : String) (h : k2 ≠ k) :
    dictGet (dictSet l k v) k2 = dictGet l k2 := by
  induction l with
  | nil => simp [dictSet, dictGet, Ne.symm h]
  | cons p rest ih =>
    by_cases hp : p.1 = k
    · simp [dictSet, hp, dictGet, Ne.symm h]
    · simp [dictSet, hp, dictGet, ih]

/-- Claim C8: saving a prompt upserts exactly that one pair: reloading
that name yields the saved text, and every other name loads exactly
what it loaded before the save. -/
theorem save_prompt_upserts (st : Option PromptLib) (name text : String) :
    load_prompt_text name (save_prompt name text st) = text ∧
    ∀ other : String, other ≠ name →
      load_prompt_text other (save_prompt name text st) =
        load_prompt_text other st := by
  have hsave : (ensure_prompt_library (save_prompt name text st)).1 =
      dictSet (ensure_prompt_library st).1 name text := rfl
  constructor
  · unfold load_prompt_text
    rw [hsave, dictGet_dictSet_self]
    rfl
  · intro other h
    unfold load_prompt_text
    rw [hsave, dictGet_dictSet_other _ _ _ _ h]

/-- Witness for C8: saving a new prompt over the freshly created
default library leaves the default entry readable unchanged. -/
theorem save_prompt_upserts_witness :
    load_prompt_text "A" (save_prompt "A" "x" none) = "x" ∧
    load_prompt_text "General Summary" (save_prompt "A" "x" none) =
      load_prompt_text "General Summary" none := by
  have h := save_prompt_upserts none "A" "x"
  exact ⟨h.1, h.2 "General Summary" (by decide)⟩

/-! ### Lemmas: the pipeline on a blank prompt -/

/-- When validation passes, transcription succeeds, summarization is
requested and the resolved prompt strips to empty, the run returns the
empty-prompt error and its effect log is exactly the transcription
call followed by the three artifact writes. -/
theorem blank_prompt_run (env : Env) (p tmpl k : String)
    (rec : TranscriptionRecord)
    (hkey : env.api_key = some k) (hk : k ≠ "")
    (hex : env.file_exists = true)
    (htr : env.transcription = Except.ok rec)
    (hblank : pyStrip tmpl = "") :
    transcribe_file env (some p) true tmpl =
      (Except.error "Selected prompt is empty. Please provide prompt text or disable summarization.",
       [Effect.callTranscription,
        Effect.writeTxt (write_transcription_outputs rec env.base_name).txtContent,
        Effect.writeJson,
        Effect.writeSrt (write_transcription_outputs rec env.base_name).srtContent]) := by
  unfold transcribe_file require_api_key
  rw [hkey, hex, htr, hblank]
  simp [hk]

def cexRecord : TranscriptionRecord := { text := some "hi", segments := some [] }

def cexEnv : Env :=
  { api_key := some "k", file_exists := true, base_name := "b",
    transcription := Except.ok cexRecord, summary_response := Except.ok "s" }

/-! ### Claim theorems: the pipeline -/

/-- Counterexample to claim C1 as stated: on a concrete run with
summarization requested and a blank resolved prompt, the pipeline does
not fail before the transcription collaborator is invoked and before
artifacts are written — the effect log of the failing run is non-empty
and contains the transcription call and the transcript write. -/
theorem blank_prompt_validating_cex :
    (transcribe_file cexEnv (some "a.mp3") true " ").1 =
      Except.error "Selected prompt is empty. Please provide prompt text or disable summarization." ∧
    (transcribe_file cexEnv (some "a.mp3") true " ").2 ≠ [] ∧
    Effect.callTranscription ∈ (transcribe_file cexEnv (some "a.mp3") true " ").2 ∧
    Effect.writeTxt "hi\n" ∈ (transcribe_file cexEnv (some "a.mp3") true " ").2 :=
  ⟨rfl, by decide, by decide, by decide⟩

/-- Claim C1 (amended): a run with summarization requested and a
resolved prompt that is blank after trimming fails with the
empty-prompt error before the completion collaborator is invoked and
before any summary file is written, but only after the transcription
collaborator has been invoked and the transcript, raw-record and
caption artifacts have been written (shown when the earlier validation
passes and transcription succeeds). -/
theorem blank_prompt_failure_point (env : Env) (p tmpl k : String)
    (rec : TranscriptionRecord)
    (hkey : env.api_key = some k) (hk : k ≠ "")
    (hex : env.file_exists = true)
    (htr : env.transcription = Except.ok rec)
    (hblank : pyStrip tmpl = "") :
    (transcribe_file env (some p) true tmpl).1 =
      Except.error "Selected prompt is empty. Please provide prompt text or disable summarization." ∧
    Effect.callTranscription ∈ (transcribe_file env (some p) true tmpl).2 ∧
    Effect.writeTxt (write_transcription_outputs rec env.base_name).txtContent ∈
      (transcribe_file env (some p) true tmpl).2 ∧
    Effect.writeJson ∈ (transcribe_file env (some p) true tmpl).2 ∧
    Effect.writeSrt (write_transcription_outputs rec env.base_name).srtContent ∈
      (transcribe_file env (some p) true tmpl).2 ∧
    (∀ s : String, Effect.callSummary s ∉ (transcribe_file env (some p) true tmpl).2) ∧
    (∀ s : String, Effect.writeSummary s ∉ (transcribe_file env (some p) true tmpl).2) := by
  have h := blank_prompt_run env p tmpl k rec hkey hk hex htr hblank
  rw [h]
  refine ⟨rfl, by simp, by simp, by simp, by simp, ?_, ?_⟩ <;> intro s <;> simp

/-- Witness for the amended C1 at the concrete environment `cexEnv`. -/
theorem blank_prompt_failure_point_witness :
    (transcribe_file cexEnv (some "a.mp3") true " ").1 =
      Except.error "Selected prompt is empty. Please provide prompt text or disable summarization." ∧
    Effect.callTranscription ∈ (transcribe_file cexEnv (some "a.mp3") true " ").2 ∧
    Effect.writeTxt (write_transcription_outputs cexRecord cexEnv.base_name).txtContent ∈
      (transcribe_file cexEnv (some "a.mp3") true " ").2 ∧
    Effect.writeJson ∈ (transcribe_file cexEnv (some "a.mp3") true " ").2 ∧
    Effect.writeSrt (write_transcription_outputs cexRecord cexEnv.base_name).srtContent ∈
      (transcribe_file cexEnv (some "a.mp3") true " ").2 ∧
    (∀ s : String, Effect.callSummary s ∉ (transcribe_file cexEnv (some "a.mp3") true " ").2) ∧
    (∀ s : String, Effect.writeSummary s ∉ (transcribe_file cexEnv (some "a.mp3") true " ").2) :=
  blank_prompt_failure_point cexEnv "a.mp3" " " "k" cexRecord rfl (by decide) rfl rfl rfl

/-- Claim C2: with summarization enabled and a blank resolved prompt,
if validation passes and transcription succeeds, the run raises the
empty-prompt error before the completion collaborator is invoked; at
that point the transcript, raw-record and caption files have been
written, and no summary file is written. -/
theorem blank_prompt_fails_before_summarizer (env : Env) (p tmpl k : String)
    (rec : TranscriptionRecord)
    (hkey : env.api_key = some k) (hk : k ≠ "")
    (hex : env.file_exists = true)
    (htr : env.transcription = Except.ok rec)
    (hblank : pyStrip tmpl = "") :
    (transcribe_file env (some p) true tmpl).1 =
      Except.error "Selected prompt is empty. Please provide prompt text or disable summarization." ∧
    (transcribe_file env (some p) true tmpl).2 =
      [Effect.callTranscription,
       Effect.writeTxt (write_transcription_outputs rec env.base_name).txtContent,
       Effect.writeJson,
       Effect.writeSrt (write_transcription_outputs rec env.base_name).srtContent] ∧
    (∀ s : String, Effect.callSummary s ∉ (transcribe_file env (some p) true tmpl).2) ∧
    (∀ s : String, Effect.writeSummary s ∉ (transcribe_file env (some p) true tmpl).2) := by
  have h := blank_prompt_run env p tmpl k rec hkey hk hex htr hblank
  rw [h]
  refine ⟨rfl, rfl, ?_, ?_⟩ <;> intro s <;> simp

/-- Witness for C2 at the concrete environment `cexEnv`. -/
theorem blank_prompt_fails_before_summarizer_witness :
    (transcribe_file cexEnv (some "a.mp3") true " ").1 =
      Except.error "Selected prompt is empty. Please provide prompt text or disable summarization." ∧
    (transcribe_file cexEnv (some "a.mp3") true " ").2 =
      [Effect.callTranscription,
       Effect.writeTxt (write_transcription_outputs cexRecord cexEnv.base_name).txtContent,
       Effect.writeJson,
       Effect.writeSrt (write_transcription_outputs cexRecord cexEnv.base_name).srtContent] ∧
    (∀ s : String, Effect.callSummary s ∉ (transcribe_file cexEnv (some "a.mp3") true " ").2) ∧
    (∀ s : String, Effect.writeSummary s ∉ (transcribe_file cexEnv (some "a.mp3") true " ").2) :=
  blank_prompt_fails_before_summarizer cexEnv "a.mp3" " " "k" cexRecord rfl (by decide) rfl rfl rfl

/-- Claim C10: for a non-empty input path, when the credential
environment variable is unset or empty the run fails with the
missing-credential error and an empty effect log (no filesystem writes
and no collaborator calls), regardless of whether the input file
exists. -/
theorem credential_check_precedes_file_check (env : Env) (p : String)
    (summarize : Bool) (tmpl : String)
    (h : env.api_key = none ∨ env.api_key = some "") :
    transcribe_file env (some p) summarize tmpl =
      (Except.error "OPENAI_API_KEY environment variable is not set.", []) := by
  unfold transcribe_file require_api_key
  rcases h with h | h <;> rw [h] <;> simp

/-- Witness for C10 in an environment whose input file does not exist
and whose credential is unset. -/
theorem credential_check_precedes_file_check_witness :
    transcribe_file
      { api_key := none, file_exists := false, base_name := "b",
        transcription := Except.error "unreachable",
        summary_response := Except.error "unreachable" }
      (some "missing.mp3") true "tpl" =
      (Except.error "OPENAI_API_KEY environment variable is not set.", []) :=
  credential_check_precedes_file_check _ "missing.mp3" true "tpl" (Or.inl rfl)

end GuiTranscribe
